import Mathlib

/-!
# Verification of the `rcsubstring` crate (src/lib.rs)

A shallow embedding of the crate's single type `RcSubstring`: a
reference-counted substring storing an `Rc<String>` together with a byte
range, constructed by `RcSubstring::new` (which runs `debug_assert!`
range checks), read through `Deref` (`&self.rcstring[start..end]`),
compared via `PartialEq<&str>`, and rendered via `Display` and the
derived `Debug`.

The text buffer is modelled as a list of characters, following the
spec's byte-offset abstraction of `TextBuffer` (an immutable sequence
accessed by byte offset; the crate does no Unicode-boundary validation
beyond bounds checks).  Fallible operations (panicking slices, the
`debug_assert!` panics of the constructor) are modelled with `Option`
and `Except String`.
-/

namespace Rcsubstring

/-- The content of the `Rc<String>` buffer: an immutable sequence of
byte-offset-addressed text units (the spec's `TextBuffer`). -/
abbrev Buffer := List Char

/-- `std::ops::Range<usize>`: the half-open interval `[start, stop)` of
byte offsets.  (Rust names the second field `end`, a Lean keyword.) -/
structure Range where
  start : Nat
  stop : Nat
  deriving DecidableEq, Repr

/-- Rust `str` range slicing `s[a..b]`: yields the window when
`a <= b <= s.len()`, otherwise the slicing primitive itself panics
(modelled as `none`). -/
def strSlice (s : Buffer) (a b : Nat) : Option Buffer :=
  if a ≤ b ∧ b ≤ s.length then some ((s.drop a).take (b - a)) else none

/-- The `RcSubstring` struct: an `Rc<String>` (modelled by its content;
the sharing semantics are modelled separately by `RcHeap`) and a range. -/
structure RcSubstring where
  rcstring : Buffer
  range : Range

/-- The first `debug_assert!` message of `RcSubstring::new`:
`"begin < end ({} < {}) when creating RcSubstring"` formatted with
`range.start`, `range.end`. -/
def beginEndMsg (a b : Nat) : String :=
  "begin < end (" ++ toString a ++ " < " ++ toString b ++ ") when creating RcSubstring"

/-- The second `debug_assert!` message of `RcSubstring::new`:
`"start index {} out of bounds when creating RcSubstring"` formatted
with `range.start`. -/
def startOobMsg (a : Nat) : String :=
  "start index " ++ toString a ++ " out of bounds when creating RcSubstring"

/-- The third `debug_assert!` message of `RcSubstring::new`:
`"end index {} out of bounds when creating RcSubstring"` formatted with
`range.end`. -/
def endOobMsg (b : Nat) : String :=
  "end index " ++ toString b ++ " out of bounds when creating RcSubstring"

/-- `RcSubstring::new(rcstring, range)`.  The three `debug_assert!`
checks run exactly when the build has debug assertions enabled (the
`dbg` flag models Rust's `debug-assertions` codegen setting: kept in
debug builds, compiled out in release builds); a failing check panics
with the formatted message (`Except.error`).  With the checks passed or
compiled out, the struct is built from the given fields. -/
def new (dbg : Bool) (rcstring : Buffer) (range : Range) : Except String RcSubstring :=
  if dbg ∧ ¬ range.stop ≥ range.start then
    .error (beginEndMsg range.start range.stop)
  else if dbg ∧ ¬ range.start ≤ rcstring.length then
    .error (startOobMsg range.start)
  else if dbg ∧ ¬ range.stop ≤ rcstring.length then
    .error (endOobMsg range.stop)
  else
    .ok ⟨rcstring, range⟩

/-- `Deref::deref`: `&self.rcstring[self.range.start..self.range.end]`,
delegating to the buffer's own slicing (which panics out of bounds). -/
def RcSubstring.deref (s : RcSubstring) : Option Buffer :=
  strSlice s.rcstring s.range.start s.range.stop

/-- `PartialEq<&str>::eq`: `self.deref() == *other` — compares the
dereferenced window content with the plain string, byte for byte.
Propagates the panic of `deref` on a malformed view. -/
def RcSubstring.eqStr (s : RcSubstring) (other : Buffer) : Option Bool :=
  s.deref.map (fun c => c == other)

/-- `Display::fmt`: `write!(f, "{}", self.deref())` — renders exactly
the dereferenced window content, propagating the panic of `deref`. -/
def RcSubstring.display (s : RcSubstring) : Option Buffer :=
  s.deref

/-- Rust `Debug` escaping of one character inside a quoted string
(the escapes exercised by the crate: newline, tab, carriage return,
quote, backslash; all other characters print themselves). -/
def escapeChar (c : Char) : List Char :=
  if c = '\n' then ['\\', 'n']
  else if c = '\t' then ['\\', 't']
  else if c = '\r' then ['\\', 'r']
  else if c = '"' then ['\\', '"']
  else if c = '\\' then ['\\', '\\']
  else [c]

/-- The escaped rendering of a buffer's characters, in order. -/
def escapeList : Buffer → List Char
  | [] => []
  | c :: rest => escapeChar c ++ escapeList rest

/-- The derived `Debug` rendering of a `String` field: the full content,
escaped, between double quotes. -/
def debugStr (buf : Buffer) : List Char :=
  '"' :: escapeList buf ++ ['"']

/-- The `Debug` rendering of a `Range<usize>`: `start..end`. -/
def rangeDebug (r : Range) : List Char :=
  (toString r.start).data ++ ['.', '.'] ++ (toString r.stop).data

/-- The derived `Debug` rendering of `RcSubstring`:
`RcSubstring { rcstring: "<full buffer, escaped>", range: a..b }`.
Total: debug formatting reads no slice and cannot fail. -/
def RcSubstring.debugFmt (s : RcSubstring) : List Char :=
  "RcSubstring \x7b rcstring: ".data ++ debugStr s.rcstring
    ++ ", range: ".data ++ rangeDebug s.range ++ " \x7d".data

/-- Indexing the view with a further range, as in `&rcsubstring[1..2]`:
deref coercion reaches the window `str`, then the underlying `str`
slicing applies with its own panic semantics. -/
def RcSubstring.subslice (v : RcSubstring) (a b : Nat) : Option Buffer :=
  v.deref.bind (fun c => strSlice c a b)

/-- `str::len` of the dereferenced window (`rcsubstring.len()`),
propagating the panic of `deref`. -/
def RcSubstring.len (v : RcSubstring) : Option Nat :=
  v.deref.map List.length

/-- `l.startsWith p`: `p` is an initial run of `l`. -/
def startsWith : List Char → List Char → Bool
  | _, [] => true
  | [], _ :: _ => false
  | a :: as, b :: bs => a == b && startsWith as bs

/-- `containsSeq big small`: `small` occurs contiguously inside `big`. -/
def containsSeq : List Char → List Char → Bool
  | [], small => small.isEmpty
  | a :: rest, small => startsWith (a :: rest) small || containsSeq rest small

/-!
## The `Rc` store

`RcSubstring` holds its buffer through `std::rc::Rc<String>`: a
single-threaded strong-count shared handle whose pointee is deallocated
exactly when the last handle is dropped.  The heap of reference-counted
strings is modelled explicitly so that handle-drop behaviour (claim
about views outliving the original handle) can be stated.
-/

/-- The store of `Rc<String>` allocations: slot `i` holds the buffer
together with its strong count, or `none` once deallocated. -/
structure RcHeap where
  slots : List (Option (Buffer × Nat))

/-- `Rc::new`: allocate a fresh buffer with strong count 1; returns the
new heap and the allocation's slot index (the original handle). -/
def RcHeap.alloc (h : RcHeap) (buf : Buffer) : RcHeap × Nat :=
  (⟨h.slots ++ [some (buf, 1)]⟩, h.slots.length)

/-- `Rc::clone` on one slot: increment the strong count. -/
def bumpSlot : Option (Buffer × Nat) → Option (Buffer × Nat)
  | some (b, n) => some (b, n + 1)
  | none => none

/-- `Rc::clone(&handle)`: a new co-owning handle to slot `i`. -/
def RcHeap.cloneAt (h : RcHeap) (i : Nat) : RcHeap :=
  ⟨h.slots.set i (bumpSlot (h.slots.getD i none))⟩

/-- Dropping one handle of a slot: decrement the strong count, and
deallocate the buffer when the dropped handle was the last one. -/
def decSlot : Option (Buffer × Nat) → Option (Buffer × Nat)
  | some (b, n + 2) => some (b, n + 1)
  | _ => none

/-- `drop(handle)` for a handle to slot `i`. -/
def RcHeap.dropAt (h : RcHeap) (i : Nat) : RcHeap :=
  ⟨h.slots.set i (decSlot (h.slots.getD i none))⟩

/-- Reading the buffer behind slot `i` (`&*rc`): available exactly while
the slot is still allocated. -/
def RcHeap.readAt (h : RcHeap) (i : Nat) : Option Buffer :=
  match h.slots.getD i none with
  | some (b, _) => some b
  | none => none

/-- An `RcSubstring` under the explicit store: the handle's slot index
plus the range (the struct's `rcstring` field as a heap handle). -/
structure RcSubstringH where
  bufId : Nat
  range : Range

/-- `Deref::deref` under the explicit store: read the buffer through the
handle, then slice `[start..end]` with the buffer's own slicing. -/
def RcSubstringH.derefH (v : RcSubstringH) (h : RcHeap) : Option Buffer :=
  (h.readAt v.bufId).bind (fun b => strSlice b v.range.start v.range.stop)

end Rcsubstring

namespace Rcsubstring

/-! ## Helper lemmas -/

/-- With a valid range the constructor's checks all pass, under either
assertion policy, and the struct is built from the given fields. -/
lemma new_ok (dbg : Bool) (buf : Buffer) (r : Range)
    (h1 : r.start ≤ r.stop) (h2 : r.start ≤ buf.length) (h3 : r.stop ≤ buf.length) :
    new dbg buf r = .ok ⟨buf, r⟩ := by
  simp [new, h1, h2, h3]

/-- Deref of a view with a valid range yields the window. -/
lemma deref_eq (buf : Buffer) (r : Range)
    (h1 : r.start ≤ r.stop) (h2 : r.stop ≤ buf.length) :
    RcSubstring.deref ⟨buf, r⟩ = some ((buf.drop r.start).take (r.stop - r.start)) := by
  simp [RcSubstring.deref, strSlice, h1, h2]

/-- A reversed range fails the first debug assertion. -/
lemma new_err1 (buf : Buffer) (r : Range) (h : r.stop < r.start) :
    new true buf r = .error (beginEndMsg r.start r.stop) := by
  unfold new
  rw [if_pos ⟨rfl, by omega⟩]

/-- An out-of-bounds start fails the second debug assertion. -/
lemma new_err2 (buf : Buffer) (r : Range) (h1 : r.start ≤ r.stop)
    (h2 : buf.length < r.start) : new true buf r = .error (startOobMsg r.start) := by
  unfold new
  split_ifs with hA hB hC
  · exact absurd hA (by rintro ⟨-, hx⟩; omega)
  · rfl
  · exact absurd ⟨rfl, by omega⟩ hB
  · exact absurd ⟨rfl, by omega⟩ hB

/-- An out-of-bounds end fails the third debug assertion. -/
lemma new_err3 (buf : Buffer) (r : Range) (h1 : r.start ≤ r.stop)
    (h2 : r.start ≤ buf.length) (h3 : buf.length < r.stop) :
    new true buf r = .error (endOobMsg r.stop) := by
  unfold new
  split_ifs with hA hB hC
  · exact absurd hA (by rintro ⟨-, hx⟩; omega)
  · exact absurd hB (by rintro ⟨-, hx⟩; omega)
  · rfl
  · exact absurd ⟨rfl, by omega⟩ hC

/-- Every list starts with itself, padding on the right. -/
lemma startsWith_append (m r : List Char) : startsWith (m ++ r) m = true := by
  induction m with
  | nil => cases r <;> simp [startsWith]
  | cons a ms ih => simp [startsWith, ih]

/-- An initial run is in particular a contiguous occurrence. -/
lemma containsSeq_of_startsWith (big small : List Char)
    (h : startsWith big small = true) : containsSeq big small = true := by
  cases big with
  | nil => cases small with
    | nil => simp [containsSeq]
    | cons b bs => simp [startsWith] at h
  | cons a rest => simp [containsSeq, h]

/-- Occurrences survive extending the searched list on the left. -/
lemma containsSeq_append_left (l big small : List Char)
    (h : containsSeq big small = true) : containsSeq (l ++ big) small = true := by
  induction l with
  | nil => simpa using h
  | cons a l ih => simp [containsSeq, ih]

/-- The middle chunk of a three-part append occurs in the whole. -/
lemma containsSeq_middle (l m r : List Char) : containsSeq (l ++ (m ++ r)) m = true :=
  containsSeq_append_left l (m ++ r) m
    (containsSeq_of_startsWith (m ++ r) m (startsWith_append m r))

/-- Occurrence via an explicit three-part decomposition. -/
lemma containsSeq_of_eq (big l m r : List Char) (h : big = l ++ (m ++ r)) :
    containsSeq big m = true := h ▸ containsSeq_middle l m r

/-- The first assertion message names the view type. -/
lemma beginEndMsg_has_type (a b : Nat) :
    containsSeq (beginEndMsg a b).data "RcSubstring".data = true := by
  apply containsSeq_of_eq _
    ("begin < end (".data ++ ((toString a).data ++ (" < ".data
      ++ ((toString b).data ++ ") when creating ".data)))) _ []
  have hs : (") when creating RcSubstring").data
      = ") when creating ".data ++ "RcSubstring".data := rfl
  simp [beginEndMsg, String.data_append, hs]

/-- The first assertion message carries the start offset. -/
lemma beginEndMsg_has_start (a b : Nat) :
    containsSeq (beginEndMsg a b).data (toString a).data = true := by
  apply containsSeq_of_eq _ "begin < end (".data _
    (" < ".data ++ ((toString b).data ++ ") when creating RcSubstring".data))
  simp [beginEndMsg, String.data_append]

/-- The first assertion message carries the end offset. -/
lemma beginEndMsg_has_stop (a b : Nat) :
    containsSeq (beginEndMsg a b).data (toString b).data = true := by
  apply containsSeq_of_eq _
    ("begin < end (".data ++ ((toString a).data ++ " < ".data)) _
    ") when creating RcSubstring".data
  simp [beginEndMsg, String.data_append]

/-- The second assertion message names the view type. -/
lemma startOobMsg_has_type (a : Nat) :
    containsSeq (startOobMsg a).data "RcSubstring".data = true := by
  apply containsSeq_of_eq _
    ("start index ".data ++ ((toString a).data ++ " out of bounds when creating ".data)) _ []
  have hs : (" out of bounds when creating RcSubstring").data
      = " out of bounds when creating ".data ++ "RcSubstring".data := rfl
  simp [startOobMsg, String.data_append, hs]

/-- The second assertion message carries the offending start offset. -/
lemma startOobMsg_has_val (a : Nat) :
    containsSeq (startOobMsg a).data (toString a).data = true := by
  apply containsSeq_of_eq _ "start index ".data _
    " out of bounds when creating RcSubstring".data
  simp [startOobMsg, String.data_append]

/-- The third assertion message names the view type. -/
lemma endOobMsg_has_type (b : Nat) :
    containsSeq (endOobMsg b).data "RcSubstring".data = true := by
  apply containsSeq_of_eq _
    ("end index ".data ++ ((toString b).data ++ " out of bounds when creating ".data)) _ []
  have hs : (" out of bounds when creating RcSubstring").data
      = " out of bounds when creating ".data ++ "RcSubstring".data := rfl
  simp [endOobMsg, String.data_append, hs]

/-- The third assertion message carries the offending end offset. -/
lemma endOobMsg_has_val (b : Nat) :
    containsSeq (endOobMsg b).data (toString b).data = true := by
  apply containsSeq_of_eq _ "end index ".data _
    " out of bounds when creating RcSubstring".data
  simp [endOobMsg, String.data_append]

/-- Escaping a character never erases it. -/
lemma one_le_escape_length (c : Char) : 1 ≤ (escapeChar c).length := by
  unfold escapeChar
  split_ifs <;> simp

/-- Escaping a buffer never shortens it. -/
lemma length_le_escapeList (buf : Buffer) : buf.length ≤ (escapeList buf).length := by
  induction buf with
  | nil => simp [escapeList]
  | cons a l ih =>
    have := one_le_escape_length a
    simp [escapeList]
    omega

end Rcsubstring

namespace Rcsubstring

/-! ## Claim theorems -/

/-- C1: for every buffer and every range with
`0 <= start <= end <= length(buffer)`, constructing the view with
`RcSubstring::new` succeeds, and the content the view exposes through
deref is exactly `buffer_content[start:end]`, byte for byte; in
particular a view with `start = end` exposes the empty string. -/
theorem construct_valid_range_content (buf : Buffer) (r : Range)
    (h1 : r.start ≤ r.stop) (h2 : r.stop ≤ buf.length) :
    ∃ v : RcSubstring, new true buf r = .ok v
      ∧ v.deref = some ((buf.drop r.start).take (r.stop - r.start))
      ∧ (r.start = r.stop → v.deref = some []) := by
  refine ⟨⟨buf, r⟩, new_ok true buf r h1 (le_trans h1 h2) h2, deref_eq buf r h1 h2, ?_⟩
  intro h
  rw [deref_eq buf r h1 h2, h]
  simp

/-- Witness for C1 at the buffer "abcd" with range 1..3. -/
theorem construct_valid_range_content_witness :
    ∃ v : RcSubstring, new true "abcd".data ⟨1, 3⟩ = .ok v
      ∧ v.deref = some (("abcd".data.drop 1).take (3 - 1))
      ∧ (1 = 3 → v.deref = some []) :=
  construct_valid_range_content "abcd".data ⟨1, 3⟩ (by decide) (by decide)

/-- C2: for every view whose fields satisfy the construction invariants,
no operation other than construction can fail: deref succeeds, every
comparison against a plain string succeeds, Display succeeds, and the
Debug rendering is produced unconditionally. -/
theorem valid_view_reads_never_fail (v : RcSubstring)
    (h1 : v.range.start ≤ v.range.stop) (h2 : v.range.stop ≤ v.rcstring.length) :
    (∃ c, v.deref = some c)
      ∧ (∀ s, ∃ b, v.eqStr s = some b)
      ∧ (∃ d, v.display = some d)
      ∧ 0 < v.debugFmt.length := by
  have hd : v.deref
      = some ((v.rcstring.drop v.range.start).take (v.range.stop - v.range.start)) := by
    simp [RcSubstring.deref, strSlice, h1, h2]
  refine ⟨⟨_, hd⟩, fun s => ?_, ⟨_, hd⟩, ?_⟩
  · exact ⟨_, by rw [RcSubstring.eqStr, hd]; rfl⟩
  · simp [RcSubstring.debugFmt]

/-- Witness for C2 at the view over "abc" with range 0..2. -/
theorem valid_view_reads_never_fail_witness :
    (∃ c, RcSubstring.deref ⟨"abc".data, ⟨0, 2⟩⟩ = some c)
      ∧ (∀ s, ∃ b, RcSubstring.eqStr ⟨"abc".data, ⟨0, 2⟩⟩ s = some b)
      ∧ (∃ d, RcSubstring.display ⟨"abc".data, ⟨0, 2⟩⟩ = some d)
      ∧ 0 < (RcSubstring.debugFmt ⟨"abc".data, ⟨0, 2⟩⟩).length :=
  valid_view_reads_never_fail ⟨"abc".data, ⟨0, 2⟩⟩ (by decide) (by decide)

/-- C3: with debug assertions enabled, construction fails exactly when
`start > end`, `start > length(buffer)` or `end > length(buffer)`; the
failure is raised at construction (the constructor returns the error
before any read), and the diagnostic names the RcSubstring type itself,
identifies the violated invariant (one of the three distinct assertion
messages, matched to the violated check), and carries the offending
numeric offsets. -/
theorem debug_validation_error_taxonomy (buf : Buffer) (r : Range) :
    ((∃ msg, new true buf r = .error msg)
        ↔ (r.stop < r.start ∨ buf.length < r.start ∨ buf.length < r.stop))
    ∧ (∀ msg, new true buf r = .error msg →
        containsSeq msg.data "RcSubstring".data = true
        ∧ ((r.stop < r.start ∧ msg = beginEndMsg r.start r.stop
              ∧ containsSeq msg.data (toString r.start).data = true
              ∧ containsSeq msg.data (toString r.stop).data = true)
           ∨ (r.start ≤ r.stop ∧ buf.length < r.start ∧ msg = startOobMsg r.start
              ∧ containsSeq msg.data (toString r.start).data = true)
           ∨ (r.start ≤ r.stop ∧ r.start ≤ buf.length ∧ buf.length < r.stop
              ∧ msg = endOobMsg r.stop
              ∧ containsSeq msg.data (toString r.stop).data = true))) := by
  constructor
  · constructor
    · rintro ⟨msg, hmsg⟩
      by_contra hc
      push_neg at hc
      obtain ⟨hc1, hc2, hc3⟩ := hc
      rw [new_ok true buf r (by omega) (by omega) (by omega)] at hmsg
      exact absurd hmsg (by simp)
    · intro h
      rcases Nat.lt_or_ge r.stop r.start with h1 | h1
      · exact ⟨_, new_err1 buf r h1⟩
      · rcases Nat.lt_or_ge buf.length r.start with h2 | h2
        · exact ⟨_, new_err2 buf r h1 h2⟩
        · rcases Nat.lt_or_ge buf.length r.stop with h3 | h3
          · exact ⟨_, new_err3 buf r h1 h2 h3⟩
          · omega
  · intro msg hmsg
    rcases Nat.lt_or_ge r.stop r.start with h1 | h1
    · rw [new_err1 buf r h1] at hmsg
      simp only [Except.error.injEq] at hmsg
      subst hmsg
      exact ⟨beginEndMsg_has_type r.start r.stop,
        Or.inl ⟨h1, rfl, beginEndMsg_has_start r.start r.stop,
          beginEndMsg_has_stop r.start r.stop⟩⟩
    · rcases Nat.lt_or_ge buf.length r.start with h2 | h2
      · rw [new_err2 buf r h1 h2] at hmsg
        simp only [Except.error.injEq] at hmsg
        subst hmsg
        exact ⟨startOobMsg_has_type r.start,
          Or.inr (Or.inl ⟨h1, h2, rfl, startOobMsg_has_val r.start⟩)⟩
      · rcases Nat.lt_or_ge buf.length r.stop with h3 | h3
        · rw [new_err3 buf r h1 h2 h3] at hmsg
          simp only [Except.error.injEq] at hmsg
          subst hmsg
          exact ⟨endOobMsg_has_type r.stop,
            Or.inr (Or.inr ⟨h1, h2, h3, rfl, endOobMsg_has_val r.stop⟩)⟩
        · rw [new_ok true buf r (by omega) (by omega) (by omega)] at hmsg
          exact absurd hmsg (by simp)

/-- Witness for C3 at the buffer "Random text" with the reversed range
3..0: a construction error arises and its message names the type. -/
theorem debug_validation_error_taxonomy_witness :
    (∃ msg, new true "Random text".data ⟨3, 0⟩ = .error msg)
      ∧ containsSeq (beginEndMsg 3 0).data "RcSubstring".data = true :=
  ⟨(debug_validation_error_taxonomy "Random text".data ⟨3, 0⟩).1.mpr (by decide),
   ((debug_validation_error_taxonomy "Random text".data ⟨3, 0⟩).2
      (beginEndMsg 3 0) (by rfl)).1⟩

/-- C4: the constructor's checks are governed by the debug-assertions
configuration: with the checks enabled a malformed range fails at
construction, while with the checks compiled out construction succeeds
and the malformed view instead fails on first read through the
underlying buffer's own out-of-bounds slicing. -/
theorem validation_policy_choice (buf : Buffer) (r : Range)
    (h : ¬ (r.start ≤ r.stop ∧ r.start ≤ buf.length ∧ r.stop ≤ buf.length)) :
    (∃ msg, new true buf r = .error msg)
      ∧ (∃ v : RcSubstring, new false buf r = .ok v
          ∧ v.deref = strSlice buf r.start r.stop
          ∧ v.deref = none) := by
  refine ⟨?_, ⟨buf, r⟩, ?_, rfl, ?_⟩
  · rcases Nat.lt_or_ge r.stop r.start with h1 | h1
    · exact ⟨_, new_err1 buf r h1⟩
    · rcases Nat.lt_or_ge buf.length r.start with h2 | h2
      · exact ⟨_, new_err2 buf r h1 h2⟩
      · rcases Nat.lt_or_ge buf.length r.stop with h3 | h3
        · exact ⟨_, new_err3 buf r h1 h2 h3⟩
        · exact absurd ⟨h1, h2, h3⟩ h
  · simp [new]
  · simp only [RcSubstring.deref, strSlice]
    rw [if_neg]
    omega

/-- Witness for C4 at the buffer "Random text" with the reversed range
3..0. -/
theorem validation_policy_choice_witness :
    (∃ msg, new true "Random text".data ⟨3, 0⟩ = .error msg)
      ∧ (∃ v : RcSubstring, new false "Random text".data ⟨3, 0⟩ = .ok v
          ∧ v.deref = strSlice "Random text".data 3 0
          ∧ v.deref = none) :=
  validation_policy_choice "Random text".data ⟨3, 0⟩ (by decide)

/-- C5: equality is content-only and symmetric: comparing a view with a
plain string compares exactly the windowed content byte for byte, the
content comparison is symmetric, a view equals a string iff its content
is that string, and two views (over any buffers and ranges) are
indistinguishable under every string comparison iff their sliced
contents coincide — buffer identity and the numeric range values play
no role. -/
theorem eq_content_only_symmetric (v w : RcSubstring) (c d : Buffer)
    (hv : v.deref = some c) (hw : w.deref = some d) :
    (∀ s, v.eqStr s = some (c == s))
      ∧ (∀ s, (c == s) = (s == c))
      ∧ (∀ s, v.eqStr s = some true ↔ c = s)
      ∧ ((∀ s, v.eqStr s = w.eqStr s) ↔ c = d) := by
  have he : ∀ s, v.eqStr s = some (c == s) := fun s => by
    rw [RcSubstring.eqStr, hv]; rfl
  have hf : ∀ s, w.eqStr s = some (d == s) := fun s => by
    rw [RcSubstring.eqStr, hw]; rfl
  refine ⟨he, fun s => ?_, fun s => ?_, ?_, ?_⟩
  · rw [Bool.eq_iff_iff]
    simp only [beq_iff_eq]
    exact eq_comm
  · rw [he s]
    simp [beq_iff_eq]
  · intro hagree
    have h1 := (he c).symm.trans ((hagree c).trans (hf c))
    simp only [beq_self_eq_true, Option.some.injEq] at h1
    have := (beq_iff_eq).mp h1.symm
    exact this.symm
  · intro hcd s
    rw [he s, hf s, hcd]

/-- Witness for C5: the views over "abcde" with range 1..3 and over
"xbc" with range 1..3 — different buffers and equal sliced text. -/
theorem eq_content_only_symmetric_witness :
    (∀ s, RcSubstring.eqStr ⟨"abcde".data, ⟨1, 3⟩⟩ s = some ("bc".data == s))
      ∧ (∀ s, ("bc".data == s) = (s == "bc".data))
      ∧ (∀ s, RcSubstring.eqStr ⟨"abcde".data, ⟨1, 3⟩⟩ s = some true ↔ "bc".data = s)
      ∧ ((∀ s, RcSubstring.eqStr ⟨"abcde".data, ⟨1, 3⟩⟩ s
            = RcSubstring.eqStr ⟨"xbc".data, ⟨1, 3⟩⟩ s) ↔ "bc".data = "bc".data) :=
  eq_content_only_symmetric ⟨"abcde".data, ⟨1, 3⟩⟩ ⟨"xbc".data, ⟨1, 3⟩⟩
    "bc".data "bc".data (by decide) (by decide)

end Rcsubstring

namespace Rcsubstring

/-- C6: under the explicit reference-counted store — allocate the
buffer (the original handle), clone the handle into the view as
construction does, then drop the original handle — the view still
dereferences to the correct window and the buffer is still readable;
the storage is deallocated only when the view's own handle, the last
holder, is also dropped. -/
theorem view_survives_buffer_drop (buf : Buffer) (r : Range)
    (h1 : r.start ≤ r.stop) (h2 : r.stop ≤ buf.length) :
    (RcSubstringH.derefH ⟨(RcHeap.alloc ⟨[]⟩ buf).2, r⟩
        (((RcHeap.alloc ⟨[]⟩ buf).1.cloneAt (RcHeap.alloc ⟨[]⟩ buf).2).dropAt
          (RcHeap.alloc ⟨[]⟩ buf).2)
      = some ((buf.drop r.start).take (r.stop - r.start)))
    ∧ ((((RcHeap.alloc ⟨[]⟩ buf).1.cloneAt (RcHeap.alloc ⟨[]⟩ buf).2).dropAt
          (RcHeap.alloc ⟨[]⟩ buf).2).readAt (RcHeap.alloc ⟨[]⟩ buf).2 = some buf)
    ∧ (((((RcHeap.alloc ⟨[]⟩ buf).1.cloneAt (RcHeap.alloc ⟨[]⟩ buf).2).dropAt
          (RcHeap.alloc ⟨[]⟩ buf).2).dropAt (RcHeap.alloc ⟨[]⟩ buf).2).readAt
            (RcHeap.alloc ⟨[]⟩ buf).2 = none) := by
  refine ⟨?_, rfl, rfl⟩
  show strSlice buf r.start r.stop = some ((buf.drop r.start).take (r.stop - r.start))
  simp [strSlice, h1, h2]

/-- Witness for C6 at the buffer "Some text" with range 5..9 (the
crate's own doc example: drop the original handle, then read "text"). -/
theorem view_survives_buffer_drop_witness :
    (RcSubstringH.derefH ⟨(RcHeap.alloc ⟨[]⟩ "Some text".data).2, ⟨5, 9⟩⟩
        (((RcHeap.alloc ⟨[]⟩ "Some text".data).1.cloneAt
            (RcHeap.alloc ⟨[]⟩ "Some text".data).2).dropAt
          (RcHeap.alloc ⟨[]⟩ "Some text".data).2)
      = some (("Some text".data.drop 5).take (9 - 5)))
    ∧ ((((RcHeap.alloc ⟨[]⟩ "Some text".data).1.cloneAt
            (RcHeap.alloc ⟨[]⟩ "Some text".data).2).dropAt
          (RcHeap.alloc ⟨[]⟩ "Some text".data).2).readAt
            (RcHeap.alloc ⟨[]⟩ "Some text".data).2 = some "Some text".data)
    ∧ (((((RcHeap.alloc ⟨[]⟩ "Some text".data).1.cloneAt
            (RcHeap.alloc ⟨[]⟩ "Some text".data).2).dropAt
          (RcHeap.alloc ⟨[]⟩ "Some text".data).2).dropAt
            (RcHeap.alloc ⟨[]⟩ "Some text".data).2).readAt
              (RcHeap.alloc ⟨[]⟩ "Some text".data).2 = none) :=
  view_survives_buffer_drop "Some text".data ⟨5, 9⟩ (by decide) (by decide)

/-- C7: for every view satisfying the construction invariants, Display
renders exactly the windowed content buffer[start..end] — nothing more,
nothing less. -/
theorem display_renders_window (v : RcSubstring)
    (h1 : v.range.start ≤ v.range.stop) (h2 : v.range.stop ≤ v.rcstring.length) :
    v.display = some ((v.rcstring.drop v.range.start).take (v.range.stop - v.range.start)) := by
  simp [RcSubstring.display, RcSubstring.deref, strSlice, h1, h2]

/-- Witness for C7 at the crate's test buffer with range 0..6
(Display renders "Line 1"). -/
theorem display_renders_window_witness :
    RcSubstring.display ⟨"Line 1\nLine 2\nLine 3".data, ⟨0, 6⟩⟩
      = some (("Line 1\nLine 2\nLine 3".data.drop 0).take (6 - 0)) :=
  display_renders_window ⟨"Line 1\nLine 2\nLine 3".data, ⟨0, 6⟩⟩ (by decide) (by decide)

/-- C8: for every view with readable content, the derived Debug
rendering contains the full underlying buffer content (quoted and
escaped, not just the window) and the numeric range, and is strictly
longer than the Display rendering. -/
theorem debug_shows_buffer_and_range (v : RcSubstring) (c : Buffer)
    (h : v.display = some c) :
    containsSeq v.debugFmt (debugStr v.rcstring) = true
      ∧ containsSeq v.debugFmt (rangeDebug v.range) = true
      ∧ c.length < v.debugFmt.length := by
  refine ⟨?_, ?_, ?_⟩
  · apply containsSeq_of_eq _ "RcSubstring \x7b rcstring: ".data _
      (", range: ".data ++ (rangeDebug v.range ++ " \x7d".data))
    simp [RcSubstring.debugFmt]
  · apply containsSeq_of_eq _
      ("RcSubstring \x7b rcstring: ".data ++ (debugStr v.rcstring ++ ", range: ".data)) _
      " \x7d".data
    simp [RcSubstring.debugFmt]
  · have hc : c.length ≤ v.rcstring.length := by
      simp only [RcSubstring.display, RcSubstring.deref, strSlice] at h
      split_ifs at h with hcond
      obtain ⟨hx1, hx2⟩ := hcond
      simp only [Option.some.injEq] at h
      subst h
      simp [List.length_take, List.length_drop]
    have hb := length_le_escapeList v.rcstring
    simp [RcSubstring.debugFmt, debugStr, List.length_append]
    omega

/-- Witness for C8 at the view over "ab" with range 0..1. -/
theorem debug_shows_buffer_and_range_witness :
    containsSeq (RcSubstring.debugFmt ⟨"ab".data, ⟨0, 1⟩⟩) (debugStr "ab".data) = true
      ∧ containsSeq (RcSubstring.debugFmt ⟨"ab".data, ⟨0, 1⟩⟩) (rangeDebug ⟨0, 1⟩) = true
      ∧ ("a".data).length < (RcSubstring.debugFmt ⟨"ab".data, ⟨0, 1⟩⟩).length :=
  debug_shows_buffer_and_range ⟨"ab".data, ⟨0, 1⟩⟩ "a".data (by decide)

/-- C9: slicing a view with a further range relative to its own window
delegates to the underlying text's slicing of the window content,
including that primitive's own failure on invalid sub-ranges; and
concretely the view "Line 1" over offsets 0..6 of the crate's test
buffer sliced at relative 1..2 yields "i". -/
theorem subslice_delegates (v : RcSubstring) (c : Buffer)
    (hv : v.deref = some c) (a b : Nat) :
    v.subslice a b = strSlice c a b
      ∧ RcSubstring.deref ⟨"Line 1\nLine 2\nLine 3".data, ⟨0, 6⟩⟩ = some "Line 1".data
      ∧ RcSubstring.subslice ⟨"Line 1\nLine 2\nLine 3".data, ⟨0, 6⟩⟩ 1 2 = some "i".data := by
  refine ⟨?_, by decide, by decide⟩
  rw [RcSubstring.subslice, hv]
  rfl

/-- Witness for C9 at the view "Line 1" over the crate's test buffer,
sub-sliced at 1..2. -/
theorem subslice_delegates_witness :
    RcSubstring.subslice ⟨"Line 1\nLine 2\nLine 3".data, ⟨0, 6⟩⟩ 1 2
        = strSlice "Line 1".data 1 2
      ∧ RcSubstring.deref ⟨"Line 1\nLine 2\nLine 3".data, ⟨0, 6⟩⟩ = some "Line 1".data
      ∧ RcSubstring.subslice ⟨"Line 1\nLine 2\nLine 3".data, ⟨0, 6⟩⟩ 1 2 = some "i".data :=
  subslice_delegates ⟨"Line 1\nLine 2\nLine 3".data, ⟨0, 6⟩⟩ "Line 1".data (by decide) 1 2

/-- C10: for every view satisfying the construction invariants, the
length query answers exactly end - start, a function of the range
alone. -/
theorem len_eq_range_width (v : RcSubstring)
    (h1 : v.range.start ≤ v.range.stop) (h2 : v.range.stop ≤ v.rcstring.length) :
    v.len = some (v.range.stop - v.range.start) := by
  simp [RcSubstring.len, RcSubstring.deref, strSlice, h1, h2]
  omega

/-- Witness for C10 at the crate's empty-view test: "Random text" with
range 3..3 has length 0. -/
theorem len_eq_range_width_witness :
    RcSubstring.len ⟨"Random text".data, ⟨3, 3⟩⟩ = some (3 - 3) :=
  len_eq_range_width ⟨"Random text".data, ⟨3, 3⟩⟩ (by decide) (by decide)

end Rcsubstring
